import Mathlib

/-!
Shallow embedding of the particle physics engine of this repository
(`src/assembly/index.ts`, AssemblyScript compiled to WebAssembly), together
with the earlier all-pairs revision of `updateParticles` kept in the same
source file.

Modelling conventions:
* `f32` arithmetic is modelled by exact rational arithmetic over `ℚ`.
* `Math.sqrt` is modelled by an explicit square-root oracle `s : ℚ → ℚ`
  passed to every operation that calls it.  Theorems that depend on the
  square root's value carry hypotheses pinning `s` down at the points where
  it is consulted; concrete runs use `sqrtVals`, and every consultation in
  those runs happens at a perfect square where `sqrtVals` returns the exact
  real square root (stated as an explicit conjunct where it matters).
* The `<i32>` cast of a nonnegative-or-negative `f32` truncates toward zero;
  `trunc32` models this on `ℚ`.
* The module-level mutable `damping` (set once by `initParticles`) is passed
  explicitly as `dmp`; the module-level `particleCount`/`particles` pair is
  the length/contents of a `List Particle`.
* The spatial grid is modelled by the contents of its cells, as a function
  from flat cell index `cellY * gridWidth + cellX` to the list of particle
  slots pushed into that cell (in push order).  The source's guard that the
  cell coordinates lie inside the grid before pushing is kept verbatim; under
  that guard the flat index is always inside the allocated `gridWidth *
  gridHeight` array, so the array-bounds behaviour is unchanged.
* `Math.random()` is modelled by a stream `r : ℕ → ℚ` of draws, consumed in
  call order (five draws per particle in `initParticles`).
-/

/-- One particle record: the six `f32` slots `[x, y, vx, vy, radius, mass]`
of one stride of the flat `Float32Array`. -/
structure Particle where
  x : ℚ
  y : ℚ
  vx : ℚ
  vy : ℚ
  radius : ℚ
  mass : ℚ
deriving DecidableEq

/-- Read particle slot `i` of the store (every read below is in range). -/
def getP (ps : List Particle) (i : ℕ) : Particle :=
  ps.getD i ⟨0, 0, 0, 0, 0, 0⟩

/-- Read-modify-write of slot `i`, as the source's `particles[o] += …`
statements do on the flat array. -/
def updAt (ps : List Particle) (i : ℕ) (f : Particle → Particle) : List Particle :=
  ps.set i (f (getP ps i))

/-- `gridCellSize` tuning constant (`let gridCellSize: f32 = 20.0`). -/
def gridCellSize : ℚ := 20

/-- The `<i32>` conversion of an `f32` value: truncation toward zero. -/
def trunc32 (q : ℚ) : ℤ :=
  if q < 0 then -⌊-q⌋ else ⌊q⌋

/-- Cell coordinate of a world coordinate: `<i32>(x / gridCellSize)`. -/
def cellCoord (q : ℚ) : ℤ :=
  trunc32 (q / gridCellSize)

/-- Grid dimensions computed by `buildGrid`:
`gridWidth = <i32>(width / gridCellSize) + 1` and likewise for the height. -/
def buildGridDims (w h : ℚ) : ℤ × ℤ :=
  (trunc32 (w / gridCellSize) + 1, trunc32 (h / gridCellSize) + 1)

/-- Cell x-coordinate of particle `j` of the store. -/
def pCellX (ps : List Particle) (j : ℕ) : ℤ :=
  cellCoord (getP ps j).x

/-- Cell y-coordinate of particle `j` of the store. -/
def pCellY (ps : List Particle) (j : ℕ) : ℤ :=
  cellCoord (getP ps j).y

/-- The source's guard before pushing particle `j` into the grid:
`cellX >= 0 && cellX < gridWidth && cellY >= 0 && cellY < gridHeight`. -/
def pCellOk (gw gh : ℤ) (ps : List Particle) (j : ℕ) : Prop :=
  0 ≤ pCellX ps j ∧ pCellX ps j < gw ∧ 0 ≤ pCellY ps j ∧ pCellY ps j < gh

instance (gw gh : ℤ) (ps : List Particle) (j : ℕ) : Decidable (pCellOk gw gh ps j) := by
  unfold pCellOk
  infer_instance

/-- Flat cell index of particle `j`: `cellY * gridWidth + cellX`. -/
def pCellIdx (gw : ℤ) (ps : List Particle) (j : ℕ) : ℕ :=
  (pCellY ps j * gw + pCellX ps j).toNat

/-- One iteration of the grid-filling loop of `buildGrid`: push slot `j`
into its cell when the cell coordinates are inside the grid, else drop it. -/
def gridInsert (gw gh : ℤ) (ps : List Particle) (g : ℕ → List ℕ) (j : ℕ) : ℕ → List ℕ :=
  if pCellOk gw gh ps j then
    fun c => if c = pCellIdx gw ps j then g c ++ [j] else g c
  else g

/-- `buildGrid(width, height)`: fresh empty cells, then every particle slot
in index order is pushed into its cell when in range. -/
def buildGrid (w h : ℚ) (ps : List Particle) : ℕ → List ℕ :=
  (List.range ps.length).foldl
    (gridInsert (buildGridDims w h).1 (buildGridDims w h).2 ps) fun _ => []

/-- Squared distance `dx*dx + dy*dy` from cached particle `c` to `pj`
(`dx = x2 - x1`, `dy = y2 - y1`). -/
def pairDistSq (c pj : Particle) : ℚ :=
  (pj.x - c.x) * (pj.x - c.x) + (pj.y - c.y) * (pj.y - c.y)

/-- Collision normal x-component `nx = dx / dist` with `dist = s distSq`. -/
def pairNx (s : ℚ → ℚ) (c pj : Particle) : ℚ :=
  (pj.x - c.x) / s (pairDistSq c pj)

/-- Collision normal y-component `ny = dy / dist`. -/
def pairNy (s : ℚ → ℚ) (c pj : Particle) : ℚ :=
  (pj.y - c.y) / s (pairDistSq c pj)

/-- Relative velocity along the collision normal,
`dvn = (vx2 - vx1) * nx + (vy2 - vy1) * ny`. -/
def pairDvn (s : ℚ → ℚ) (c pj : Particle) : ℚ :=
  (pj.vx - c.vx) * pairNx s c pj + (pj.vy - c.vy) * pairNy s c pj

/-- Narrow-phase resolution of candidate pair `(i, j)` against the store.
`c` is the stale cache of particle `i`'s fields read once at the top of
`i`'s scan (the source reads `x1 … m1` before its cell loops and never
refreshes them), while particle `j`'s fields are read fresh from the store.
Both particles' slots are updated in place through `+=`-style writes. -/
def resolvePair (s : ℚ → ℚ) (c : Particle) (i j : ℕ) (ps : List Particle) : List Particle :=
  let pj := getP ps j
  let distSq := pairDistSq c pj
  let minDist := c.radius + pj.radius
  if distSq < minDist * minDist ∧ distSq > 0.01 then
    let dist := s distSq
    let nx := pairNx s c pj
    let ny := pairNy s c pj
    let dvn := pairDvn s c pj
    if dvn < 0 then ps
    else
      let impulse := 2 * dvn / (c.mass + pj.mass) * 0.9
      let ps1 := updAt ps i fun p =>
        ⟨p.x, p.y, p.vx + impulse * pj.mass * nx, p.vy + impulse * pj.mass * ny, p.radius, p.mass⟩
      let ps2 := updAt ps1 j fun p =>
        ⟨p.x, p.y, p.vx - impulse * c.mass * nx, p.vy - impulse * c.mass * ny, p.radius, p.mass⟩
      let sep := (minDist - dist) / (c.mass + pj.mass)
      let ps3 := updAt ps2 i fun p =>
        ⟨p.x - nx * sep * pj.mass, p.y - ny * sep * pj.mass, p.vx, p.vy, p.radius, p.mass⟩
      updAt ps3 j fun p =>
        ⟨p.x + nx * sep * c.mass, p.y + ny * sep * c.mass, p.vx, p.vy, p.radius, p.mass⟩
  else ps

/-- Integration and boundary confinement for one particle, per step:
advance the position by `v*dt`, damp the velocity, then clamp-and-reflect
against each wall with restitution `0.8` using `Math.abs`. -/
def integrateParticle (dmp dt w h : ℚ) (p : Particle) : Particle :=
  let x := p.x + p.vx * dt
  let y := p.y + p.vy * dt
  let vx := p.vx * dmp
  let vy := p.vy * dmp
  let r := p.radius
  let xv : ℚ × ℚ :=
    if x - r < 0 then (r, |vx| * 0.8)
    else if x + r > w then (w - r, -(|vx| * 0.8))
    else (x, vx)
  let yv : ℚ × ℚ :=
    if y - r < 0 then (r, |vy| * 0.8)
    else if y + r > h then (h - r, -(|vy| * 0.8))
    else (y, vy)
  ⟨xv.1, yv.1, xv.2, yv.2, p.radius, p.mass⟩

/-- The nine-cell neighbourhood walk around cell `(cx, cy)`, `offsetY` outer
and `offsetX` inner, skipping cells outside the grid, yielding flat cell
indices in visit order. -/
def neighborCells (gw gh : ℤ) (cx cy : ℤ) : List ℕ :=
  ([-1, 0, 1] : List ℤ).flatMap fun oy =>
    ([-1, 0, 1] : List ℤ).filterMap fun ox =>
      let ccx := cx + ox
      let ccy := cy + oy
      if 0 ≤ ccx ∧ ccx < gw ∧ 0 ≤ ccy ∧ ccy < gh then some ((ccy * gw + ccx).toNat)
      else none

/-- Scan of one grid cell during particle `i`'s neighbourhood walk:
candidates `j ≤ i` are skipped (`if (j <= i) continue`), the rest are
resolved against the store in order. -/
def scanCell (s : ℚ → ℚ) (c : Particle) (i : ℕ) (cell : List ℕ) (ps : List Particle) :
    List Particle :=
  cell.foldl (fun cur j => if j ≤ i then cur else resolvePair s c i j cur) ps

/-- Collision scan for particle `i` in the grid version: cache `i`'s fields,
locate its cell from the cached position, and walk the 3×3 neighbourhood. -/
def scanParticle (s : ℚ → ℚ) (gw gh : ℤ) (grid : ℕ → List ℕ) (i : ℕ)
    (ps : List Particle) : List Particle :=
  let c := getP ps i
  (neighborCells gw gh (cellCoord c.x) (cellCoord c.y)).foldl
    (fun cur idx => scanCell s c i (grid idx) cur) ps

/-- `updateParticles(deltaTime, width, height)` — current, grid-based
version: integrate and bound every particle, build the spatial grid, then
resolve collisions using the grid. -/
def updateParticlesG (s : ℚ → ℚ) (dmp dt w h : ℚ) (ps : List Particle) : List Particle :=
  let ps1 := ps.map (integrateParticle dmp dt w h)
  let gw := (buildGridDims w h).1
  let gh := (buildGridDims w h).2
  let grid := buildGrid w h ps1
  (List.range ps1.length).foldl (fun cur i => scanParticle s gw gh grid i cur) ps1

/-- Inner loop of the earlier all-pairs `updateParticles`: for particle `i`
(fields cached in `c`), resolve against every `j` from `i+1` to `n-1`. -/
def scanNaive (s : ℚ → ℚ) (n i : ℕ) (ps : List Particle) : List Particle :=
  let c := getP ps i
  (List.range' (i + 1) (n - (i + 1))).foldl (fun cur j => resolvePair s c i j cur) ps

/-- `updateParticles` — earlier all-pairs version: integrate and bound every
particle, then the naive double loop over pairs `i < j`. -/
def updateParticlesN (s : ℚ → ℚ) (dmp dt w h : ℚ) (ps : List Particle) : List Particle :=
  let ps1 := ps.map (integrateParticle dmp dt w h)
  let n := ps1.length
  (List.range (n - 1)).foldl (fun cur i => scanNaive s n i cur) ps1

/-- `applyGravity(gravityX, gravityY)`: add `(gx, gy)` to every velocity. -/
def applyGravity (gx gy : ℚ) (ps : List Particle) : List Particle :=
  ps.map fun p => ⟨p.x, p.y, p.vx + gx, p.vy + gy, p.radius, p.mass⟩

/-- Squared distance from the force origin `(mx, my)` to particle `p`,
with `dx = x - mouseX`, `dy = y - mouseY`. -/
def pointDistSq (mx my : ℚ) (p : Particle) : ℚ :=
  (p.x - mx) * (p.x - mx) + (p.y - my) * (p.y - my)

/-- Per-particle body of `applyForce`: inside the radius and away from the
degenerate centre, add `(dx/dist) * force` to the velocity with
`force = strength * (1 - dist / forceRadius)`. -/
def applyForceP (s : ℚ → ℚ) (mx my fr st : ℚ) (p : Particle) : Particle :=
  let distSq := pointDistSq mx my p
  if distSq < fr * fr ∧ distSq > 0.01 then
    let dist := s distSq
    let force := st * (1 - dist / fr)
    ⟨p.x, p.y, p.vx + (p.x - mx) / dist * force, p.vy + (p.y - my) / dist * force,
      p.radius, p.mass⟩
  else p

/-- `applyForce(mouseX, mouseY, forceRadius, strength)` over the store. -/
def applyForce (s : ℚ → ℚ) (mx my fr st : ℚ) (ps : List Particle) : List Particle :=
  ps.map (applyForceP s mx my fr st)

/-- Particle `i` created by `initParticles` from the random stream `r`
(five draws per particle, consumed in call order). -/
def initParticle (r : ℕ → ℚ) (w h : ℚ) (i : ℕ) : Particle :=
  let rad := 3 + r (5 * i + 4) * 5
  ⟨r (5 * i) * w, r (5 * i + 1) * h,
    (r (5 * i + 2) - 0.5) * 50, (r (5 * i + 3) - 0.5) * 50,
    rad, rad * rad⟩

/-- `initParticles(count, width, height, _damping)`: allocate and populate
`count` particles (the damping assignment is the `dmp` value threaded into
the other operations). -/
def initParticles (r : ℕ → ℚ) (count : ℕ) (w h : ℚ) : List Particle :=
  (List.range count).map (initParticle r w h)

/-- One exported mutating operation of the engine, as invoked by the host
frame loop. -/
inductive Op where
  | step (dt w h : ℚ)
  | gravity (gx gy : ℚ)
  | force (px py fr st : ℚ)

/-- Dispatch one operation against the store. -/
def applyOp (s : ℚ → ℚ) (dmp : ℚ) (ps : List Particle) : Op → List Particle
  | Op.step dt w h => updateParticlesG s dmp dt w h ps
  | Op.gravity gx gy => applyGravity gx gy ps
  | Op.force px py fr st => applyForce s px py fr st ps

/-- A finite sequence of exported operations, applied in order. -/
def applyOps (s : ℚ → ℚ) (dmp : ℚ) (ops : List Op) (ps : List Particle) : List Particle :=
  ops.foldl (applyOp s dmp) ps

/-- Square-root oracle for the concrete runs below.  Every value it is
consulted at in those runs is one of the listed perfect squares, where it
returns the exact real square root. -/
def sqrtVals (q : ℚ) : ℚ :=
  if q = 9 then 3
  else if q = 64 then 8
  else if q = 625 then 25
  else if q = 900 then 30
  else if q = 1600 then 40
  else 0

/-- Random stream realising the two-particle store used in the concrete
runs: both particles of radius 5 and mass 25, at `(5, 10)` and `(8, 10)`,
at rest, in a 100 × 20 world. -/
def randStream (n : ℕ) : ℚ :=
  ([1/20, 1/2, 1/2, 1/2, 2/5, 2/25, 1/2, 1/2, 1/2, 2/5] : List ℚ).getD n 0

/-- The store produced by `initParticles` from `randStream`: two overlapping
particles resting against each other near the left wall. -/
def exState : List Particle :=
  [⟨5, 10, 0, 0, 5, 25⟩, ⟨8, 10, 0, 0, 5, 25⟩]

/-- Two large overlapping particles whose grid cells are two columns apart:
the 3×3 neighbourhood walk of the grid version never discovers the pair. -/
def farState : List Particle :=
  [⟨30, 30, 0, 0, 30, 900⟩, ⟨70, 30, 0, 0, 30, 900⟩]

/-- The store `exState` after one `updateParticles` call with `dt = 0`:
the overlap-separation step has pushed particle 0 into the left wall. -/
def exState' : List Particle :=
  [⟨3/2, 10, 0, 0, 5, 25⟩, ⟨23/2, 10, 0, 0, 5, 25⟩]

/-- The store `farState` after one all-pairs `updateParticles` call with
`dt = 0`: the pair was found and separated. -/
def farState' : List Particle :=
  [⟨20, 30, 0, 0, 30, 900⟩, ⟨80, 30, 0, 0, 30, 900⟩]

/-- The radius/mass invariant of the spec: radius within the configured
`[3, 8]` range and mass derived as radius squared. -/
def goodP (p : Particle) : Prop :=
  3 ≤ p.radius ∧ p.radius ≤ 8 ∧ p.mass = p.radius * p.radius

/-! ### Store-access lemmas -/

theorem getP_set_self (ps : List Particle) (i : ℕ) (a : Particle) (h : i < ps.length) :
    getP (ps.set i a) i = a := by
  simp [getP, List.getD_eq_getElem?_getD, List.getElem?_set_self, h]

theorem getP_set_ne (ps : List Particle) (i j : ℕ) (a : Particle) (h : i ≠ j) :
    getP (ps.set i a) j = getP ps j := by
  simp [getP, List.getD_eq_getElem?_getD, List.getElem?_set_ne, h]

theorem length_updAt (ps : List Particle) (i : ℕ) (f : Particle → Particle) :
    (updAt ps i f).length = ps.length := by
  simp [updAt]

theorem getP_updAt_self (ps : List Particle) (i : ℕ) (f : Particle → Particle)
    (h : i < ps.length) : getP (updAt ps i f) i = f (getP ps i) :=
  getP_set_self ps i _ h

theorem getP_updAt_ne (ps : List Particle) (i j : ℕ) (f : Particle → Particle)
    (h : i ≠ j) : getP (updAt ps i f) j = getP ps j :=
  getP_set_ne ps i j _ h

theorem getP_map (f : Particle → Particle) (ps : List Particle) (i : ℕ)
    (h : i < ps.length) : getP (ps.map f) i = f (getP ps i) := by
  simp [getP, List.getD_eq_getElem?_getD, List.getElem?_map,
    List.getElem?_eq_getElem, h]

theorem getP_mem (ps : List Particle) (i : ℕ) (h : i < ps.length) : getP ps i ∈ ps := by
  simp only [getP, List.getD_eq_getElem?_getD, List.getElem?_eq_getElem, h, Option.getD_some]
  exact List.getElem_mem h

theorem mem_updAt_cases (ps : List Particle) (i : ℕ) (f : Particle → Particle)
    (p : Particle) (hp : p ∈ updAt ps i f) :
    p ∈ ps ∨ (i < ps.length ∧ p = f (getP ps i)) := by
  rcases Nat.lt_or_ge i ps.length with hlt | hge
  · rcases List.mem_or_eq_of_mem_set hp with hmem | rfl
    · exact Or.inl hmem
    · exact Or.inr ⟨hlt, rfl⟩
  · left
    rwa [updAt, List.set_eq_of_length_le hge] at hp

/-! ### Grid membership lemmas -/

theorem gridInsert_mem (gw gh : ℤ) (ps : List Particle) (g : ℕ → List ℕ) (a j c : ℕ) :
    j ∈ gridInsert gw gh ps g a c ↔
      j ∈ g c ∨ (j = a ∧ pCellOk gw gh ps a ∧ c = pCellIdx gw ps a) := by
  unfold gridInsert
  split_ifs with hok
  · by_cases hc : c = pCellIdx gw ps a
    · simp [hc, hok]
    · simp [hc, hok]
  · simp [hok]

theorem gridFold_mem (gw gh : ℤ) (ps : List Particle) (l : List ℕ) (g : ℕ → List ℕ)
    (j c : ℕ) :
    j ∈ (l.foldl (gridInsert gw gh ps) g) c ↔
      j ∈ g c ∨ (j ∈ l ∧ pCellOk gw gh ps j ∧ c = pCellIdx gw ps j) := by
  induction l generalizing g with
  | nil => simp
  | cons a t ih =>
    simp only [List.foldl_cons, ih, gridInsert_mem, List.mem_cons]
    constructor
    · rintro ((hg | ⟨rfl, hok, hc⟩) | ⟨ht, hok, hc⟩)
      · exact Or.inl hg
      · exact Or.inr ⟨Or.inl rfl, hok, hc⟩
      · exact Or.inr ⟨Or.inr ht, hok, hc⟩
    · rintro (hg | ⟨rfl | ht, hok, hc⟩)
      · exact Or.inl (Or.inl hg)
      · exact Or.inl (Or.inr ⟨rfl, hok, hc⟩)
      · exact Or.inr ⟨ht, hok, hc⟩

/-! ### Radius/mass preservation lemmas -/

theorem goodP_updAt (ps : List Particle) (i : ℕ) (f : Particle → Particle)
    (hf : ∀ q, goodP q → goodP (f q)) (h : ∀ p ∈ ps, goodP p) :
    ∀ p ∈ updAt ps i f, goodP p := by
  intro p hp
  rcases mem_updAt_cases ps i f p hp with hmem | ⟨hlt, rfl⟩
  · exact h p hmem
  · exact hf _ (h _ (getP_mem ps i hlt))

theorem goodP_resolvePair (s : ℚ → ℚ) (c : Particle) (i j : ℕ) (ps : List Particle)
    (h : ∀ p ∈ ps, goodP p) : ∀ p ∈ resolvePair s c i j ps, goodP p := by
  simp only [resolvePair]
  split_ifs
  · exact h
  · refine goodP_updAt _ _ _ (fun q hq => ?_) (goodP_updAt _ _ _ (fun q hq => ?_)
      (goodP_updAt _ _ _ (fun q hq => ?_) (goodP_updAt _ _ _ (fun q hq => ?_) h))) <;>
      simpa [goodP] using hq
  · exact h

theorem goodP_foldl {α : Type} (step : List Particle → α → List Particle)
    (hstep : ∀ ps x, (∀ p ∈ ps, goodP p) → ∀ p ∈ step ps x, goodP p)
    (l : List α) (ps : List Particle) (h : ∀ p ∈ ps, goodP p) :
    ∀ p ∈ l.foldl step ps, goodP p := by
  induction l generalizing ps with
  | nil => exact h
  | cons a t ih => exact ih (step ps a) (hstep ps a h)

theorem goodP_integrate (dmp dt w h : ℚ) (ps : List Particle) (hps : ∀ p ∈ ps, goodP p) :
    ∀ p ∈ ps.map (integrateParticle dmp dt w h), goodP p := by
  intro p hp
  rcases List.mem_map.mp hp with ⟨q, hq, rfl⟩
  simpa [goodP, integrateParticle] using hps q hq

theorem goodP_scanCell (s : ℚ → ℚ) (c : Particle) (i : ℕ) (cell : List ℕ)
    (ps : List Particle) (h : ∀ p ∈ ps, goodP p) : ∀ p ∈ scanCell s c i cell ps, goodP p := by
  unfold scanCell
  refine goodP_foldl _ (fun cur j hcur => ?_) cell ps h
  by_cases hj : j ≤ i
  · simpa [hj] using hcur
  · simpa [hj] using goodP_resolvePair s c i j cur hcur

theorem goodP_scanParticle (s : ℚ → ℚ) (gw gh : ℤ) (grid : ℕ → List ℕ) (i : ℕ)
    (ps : List Particle) (h : ∀ p ∈ ps, goodP p) :
    ∀ p ∈ scanParticle s gw gh grid i ps, goodP p := by
  unfold scanParticle
  exact goodP_foldl _ (fun cur idx hcur => goodP_scanCell s _ i (grid idx) cur hcur) _ ps h

theorem goodP_updateParticlesG (s : ℚ → ℚ) (dmp dt w h : ℚ) (ps : List Particle)
    (hps : ∀ p ∈ ps, goodP p) : ∀ p ∈ updateParticlesG s dmp dt w h ps, goodP p := by
  unfold updateParticlesG
  exact goodP_foldl _ (fun cur i hcur => goodP_scanParticle s _ _ _ i cur hcur) _ _
    (goodP_integrate dmp dt w h ps hps)

theorem goodP_applyGravity (gx gy : ℚ) (ps : List Particle) (hps : ∀ p ∈ ps, goodP p) :
    ∀ p ∈ applyGravity gx gy ps, goodP p := by
  intro p hp
  rcases List.mem_map.mp hp with ⟨q, hq, rfl⟩
  simpa [goodP] using hps q hq

theorem goodP_applyForce (s : ℚ → ℚ) (mx my fr st : ℚ) (ps : List Particle)
    (hps : ∀ p ∈ ps, goodP p) : ∀ p ∈ applyForce s mx my fr st ps, goodP p := by
  intro p hp
  rcases List.mem_map.mp hp with ⟨q, hq, rfl⟩
  have := hps q hq
  simp only [applyForceP]
  split_ifs
  · simpa [goodP] using this
  · exact this

theorem goodP_applyOps (s : ℚ → ℚ) (dmp : ℚ) (ops : List Op) (ps : List Particle)
    (hps : ∀ p ∈ ps, goodP p) : ∀ p ∈ applyOps s dmp ops ps, goodP p := by
  unfold applyOps
  refine goodP_foldl _ (fun cur op hcur => ?_) ops ps hps
  cases op with
  | step dt w h => exact goodP_updateParticlesG s dmp dt w h cur hcur
  | gravity gx gy => exact goodP_applyGravity gx gy cur hcur
  | force px py fr st => exact goodP_applyForce s px py fr st cur hcur

theorem goodP_init (r : ℕ → ℚ) (count : ℕ) (w h : ℚ) (hr : ∀ n, 0 ≤ r n ∧ r n < 1) :
    ∀ p ∈ initParticles r count w h, goodP p := by
  intro p hp
  rcases List.mem_map.mp hp with ⟨i, -, rfl⟩
  obtain ⟨h0, h1⟩ := hr (5 * i + 4)
  refine ⟨by simp [initParticle]; linarith, by simp [initParticle]; linarith, rfl⟩

/-! ### Evaluation of the concrete runs -/

theorem dimsEx : buildGridDims 100 20 = (6, 2) := by
  norm_num [buildGridDims, trunc32, gridCellSize]

theorem nbhdEx : neighborCells 6 2 0 0 = [0, 1, 6, 7] := by
  norm_num [neighborCells, List.filterMap_cons, List.filterMap_nil, List.flatMap_cons,
    List.flatMap_nil]
  decide

theorem gridEx0 : buildGrid 100 20 exState 0 = [0, 1] := by
  norm_num [buildGrid, dimsEx, gridInsert, pCellOk, pCellX, pCellY, pCellIdx, cellCoord,
    trunc32, gridCellSize, getP, exState, List.range_succ]

theorem gridEx1 : buildGrid 100 20 exState 1 = [] := by
  norm_num [buildGrid, dimsEx, gridInsert, pCellOk, pCellX, pCellY, pCellIdx, cellCoord,
    trunc32, gridCellSize, getP, exState, List.range_succ]

theorem gridEx6 : buildGrid 100 20 exState 6 = [] := by
  norm_num [buildGrid, dimsEx, gridInsert, pCellOk, pCellX, pCellY, pCellIdx, cellCoord,
    trunc32, gridCellSize, getP, exState, List.range_succ]

theorem gridEx7 : buildGrid 100 20 exState 7 = [] := by
  norm_num [buildGrid, dimsEx, gridInsert, pCellOk, pCellX, pCellY, pCellIdx, cellCoord,
    trunc32, gridCellSize, getP, exState, List.range_succ]

theorem resolveEx : resolvePair sqrtVals ⟨5, 10, 0, 0, 5, 25⟩ 0 1 exState = exState' := by
  norm_num [resolvePair, pairDistSq, pairNx, pairNy, pairDvn, sqrtVals, updAt, getP,
    exState, exState']

theorem scanEx0 : scanParticle sqrtVals 6 2 (buildGrid 100 20 exState) 0 exState = exState' := by
  have hc : getP exState 0 = ⟨5, 10, 0, 0, 5, 25⟩ := by norm_num [getP, exState]
  have h1 : cellCoord (5 : ℚ) = 0 := by norm_num [cellCoord, trunc32, gridCellSize]
  have h2 : cellCoord (10 : ℚ) = 0 := by norm_num [cellCoord, trunc32, gridCellSize]
  simp only [scanParticle, hc, h1, h2, nbhdEx, List.foldl_cons, List.foldl_nil,
    gridEx0, gridEx1, gridEx6, gridEx7, scanCell]
  norm_num [resolveEx]

theorem scanEx1 : scanParticle sqrtVals 6 2 (buildGrid 100 20 exState) 1 exState' = exState' := by
  have hc : getP exState' 1 = ⟨23/2, 10, 0, 0, 5, 25⟩ := by norm_num [getP, exState']
  have h1 : cellCoord (23/2 : ℚ) = 0 := by norm_num [cellCoord, trunc32, gridCellSize]
  have h2 : cellCoord (10 : ℚ) = 0 := by norm_num [cellCoord, trunc32, gridCellSize]
  simp only [scanParticle, hc, h1, h2, nbhdEx, List.foldl_cons, List.foldl_nil,
    gridEx0, gridEx1, gridEx6, gridEx7, scanCell]
  norm_num

theorem integEx : exState.map (integrateParticle (999/1000) 0 100 20) = exState := by
  norm_num [integrateParticle, exState]

theorem gridRunEx : updateParticlesG sqrtVals (999/1000) 0 100 20 exState = exState' := by
  simp only [updateParticlesG, integEx, dimsEx]
  have hlen : exState.length = 2 := by norm_num [exState]
  simp only [hlen, List.range_succ, List.range_zero, List.foldl_cons, List.foldl_nil,
    List.nil_append, List.cons_append, scanEx0, scanEx1]

theorem naiveRunEx : updateParticlesN sqrtVals (999/1000) 0 100 20 exState = exState' := by
  simp only [updateParticlesN, integEx]
  have hlen : exState.length = 2 := by norm_num [exState]
  have hsc : scanNaive sqrtVals 2 0 exState = exState' := by
    have hc : getP exState 0 = ⟨5, 10, 0, 0, 5, 25⟩ := by norm_num [getP, exState]
    simp only [scanNaive, hc]
    norm_num [List.range', resolveEx]
  simp only [hlen, List.range_succ, List.range_zero, List.foldl_cons, List.foldl_nil,
    List.nil_append, hsc]

theorem initEvalEx : initParticles randStream 2 100 20 = exState := by
  norm_num [initParticles, initParticle, randStream, exState, List.range_succ]

theorem dimsFar : buildGridDims 100 60 = (6, 4) := by
  norm_num [buildGridDims, trunc32, gridCellSize]

theorem integFar : farState.map (integrateParticle (999/1000) 0 100 60) = farState := by
  norm_num [integrateParticle, farState]

theorem gridFar (c : ℕ) :
    buildGrid 100 60 farState c = if c = 7 then [0] else if c = 9 then [1] else [] := by
  norm_num [buildGrid, dimsFar, gridInsert, pCellOk, pCellX, pCellY, pCellIdx, cellCoord,
    trunc32, gridCellSize, getP, farState, List.range_succ]
  split_ifs <;> simp_all

theorem nbhdFar0 : neighborCells 6 4 1 1 = [0, 1, 2, 6, 7, 8, 12, 13, 14] := by
  norm_num [neighborCells, List.filterMap_cons, List.filterMap_nil, List.flatMap_cons,
    List.flatMap_nil]
  decide

theorem nbhdFar1 : neighborCells 6 4 3 1 = [2, 3, 4, 8, 9, 10, 14, 15, 16] := by
  norm_num [neighborCells, List.filterMap_cons, List.filterMap_nil, List.flatMap_cons,
    List.flatMap_nil]
  decide

theorem scanFar0 : scanParticle sqrtVals 6 4 (buildGrid 100 60 farState) 0 farState = farState := by
  have hc : getP farState 0 = ⟨30, 30, 0, 0, 30, 900⟩ := by norm_num [getP, farState]
  have h1 : cellCoord (30 : ℚ) = 1 := by norm_num [cellCoord, trunc32, gridCellSize]
  simp only [scanParticle, hc, h1, nbhdFar0, List.foldl_cons, List.foldl_nil, gridFar, scanCell]
  norm_num

theorem scanFar1 : scanParticle sqrtVals 6 4 (buildGrid 100 60 farState) 1 farState = farState := by
  have hc : getP farState 1 = ⟨70, 30, 0, 0, 30, 900⟩ := by norm_num [getP, farState]
  have h1 : cellCoord (70 : ℚ) = 3 := by norm_num [cellCoord, trunc32, gridCellSize]
  have h2 : cellCoord (30 : ℚ) = 1 := by norm_num [cellCoord, trunc32, gridCellSize]
  simp only [scanParticle, hc, h1, h2, nbhdFar1, List.foldl_cons, List.foldl_nil, gridFar, scanCell]
  norm_num

theorem gridRunFar : updateParticlesG sqrtVals (999/1000) 0 100 60 farState = farState := by
  simp only [updateParticlesG, integFar, dimsFar]
  have hlen : farState.length = 2 := by norm_num [farState]
  simp only [hlen, List.range_succ, List.range_zero, List.foldl_cons, List.foldl_nil,
    List.nil_append, List.cons_append, scanFar0, scanFar1]

theorem resolveFar : resolvePair sqrtVals ⟨30, 30, 0, 0, 30, 900⟩ 0 1 farState = farState' := by
  norm_num [resolvePair, pairDistSq, pairNx, pairNy, pairDvn, sqrtVals, updAt, getP,
    farState, farState']

theorem naiveRunFar : updateParticlesN sqrtVals (999/1000) 0 100 60 farState = farState' := by
  simp only [updateParticlesN, integFar]
  have hlen : farState.length = 2 := by norm_num [farState]
  have hsc : scanNaive sqrtVals 2 0 farState = farState' := by
    have hc : getP farState 0 = ⟨30, 30, 0, 0, 30, 900⟩ := by norm_num [getP, farState]
    simp only [scanNaive, hc]
    norm_num [List.range', resolveFar]
  simp only [hlen, List.range_succ, List.range_zero, List.foldl_cons, List.foldl_nil,
    List.nil_append, hsc]

/-! ### C1 — position bounds across `updateParticles` -/

/-- C1, counterexample: an initialized store (reached from `initParticles`
with the explicit random stream `randStream`) on which one `updateParticles`
call with `dt = 0 ≥ 0` leaves particle 0 at `x = 3/2 < 5 = radius`, outside
the radius margin, although every radius fits the world on both axes.  The
separation step of the collision resolver runs after the boundary clamp and
pushes the particle past the wall.  (The only square root consulted in the
run is at the perfect square 9, where `sqrtVals` is exact.) -/
theorem sepPushesOutOfBounds :
    initParticles randStream 2 100 20 = exState ∧
    2 * (getP exState 0).radius ≤ 100 ∧ 2 * (getP exState 0).radius ≤ 20 ∧
    2 * (getP exState 1).radius ≤ 100 ∧ 2 * (getP exState 1).radius ≤ 20 ∧
    sqrtVals 9 * sqrtVals 9 = 9 ∧ 0 < sqrtVals 9 ∧
    (getP (updateParticlesG sqrtVals (999/1000) 0 100 20 exState) 0).x <
      (getP (updateParticlesG sqrtVals (999/1000) 0 100 20 exState) 0).radius := by
  refine ⟨initEvalEx, ?_, ?_, ?_, ?_, ?_, ?_, ?_⟩
  · norm_num [getP, exState]
  · norm_num [getP, exState]
  · norm_num [getP, exState]
  · norm_num [getP, exState]
  · norm_num [sqrtVals]
  · norm_num [sqrtVals]
  · rw [gridRunEx]
    norm_num [getP, exState']

/-- C1, amended: the integrate-and-bound phase alone does keep every
particle inside the world inclusive of its radius margin (whenever the
world is at least two radii wide and high); the bound can then be broken
within the same `updateParticles` call by the overlap-separation step. -/
theorem integrateKeepsBounds (dmp dt w h : ℚ) (p : Particle)
    (hw : 2 * p.radius ≤ w) (hh : 2 * p.radius ≤ h) :
    p.radius ≤ (integrateParticle dmp dt w h p).x ∧
      (integrateParticle dmp dt w h p).x ≤ w - p.radius ∧
      p.radius ≤ (integrateParticle dmp dt w h p).y ∧
      (integrateParticle dmp dt w h p).y ≤ h - p.radius := by
  simp only [integrateParticle]
  split_ifs <;>
    refine ⟨?_, ?_, ?_, ?_⟩ <;> simp only [] <;> linarith

/-- C1, witness for the amended theorem at a concrete particle. -/
theorem integrateKeepsBoundsInstance :
    (⟨2, 50, -10, 0, 5, 25⟩ : Particle).radius ≤
        (integrateParticle 1 1 100 100 ⟨2, 50, -10, 0, 5, 25⟩).x ∧
      (integrateParticle 1 1 100 100 ⟨2, 50, -10, 0, 5, 25⟩).x ≤
        100 - (⟨2, 50, -10, 0, 5, 25⟩ : Particle).radius ∧
      (⟨2, 50, -10, 0, 5, 25⟩ : Particle).radius ≤
        (integrateParticle 1 1 100 100 ⟨2, 50, -10, 0, 5, 25⟩).y ∧
      (integrateParticle 1 1 100 100 ⟨2, 50, -10, 0, 5, 25⟩).y ≤
        100 - (⟨2, 50, -10, 0, 5, 25⟩ : Particle).radius :=
  integrateKeepsBounds 1 1 100 100 ⟨2, 50, -10, 0, 5, 25⟩ (by norm_num) (by norm_num)

/-! ### C2 — pair momentum conservation -/

/-- C2: for a pair the resolver actually processes (overlapping,
`distSq > 0.01`, `dvn ≥ 0`), the velocity update conserves the pair's
total momentum exactly: the cached mass of particle `i` times its velocity
change plus particle `j`'s mass times its velocity change is zero on both
axes, whatever value the square-root oracle returns. -/
theorem resolvePairMomentum (s : ℚ → ℚ) (c : Particle) (i j : ℕ) (ps : List Particle)
    (hij : i ≠ j) (hi : i < ps.length) (hj : j < ps.length)
    (hover : pairDistSq c (getP ps j) <
      (c.radius + (getP ps j).radius) * (c.radius + (getP ps j).radius))
    (hpos : (0.01 : ℚ) < pairDistSq c (getP ps j))
    (hdvn : 0 ≤ pairDvn s c (getP ps j)) :
    c.mass * ((getP (resolvePair s c i j ps) i).vx - (getP ps i).vx) +
        (getP ps j).mass * ((getP (resolvePair s c i j ps) j).vx - (getP ps j).vx) = 0 ∧
      c.mass * ((getP (resolvePair s c i j ps) i).vy - (getP ps i).vy) +
        (getP ps j).mass * ((getP (resolvePair s c i j ps) j).vy - (getP ps j).vy) = 0 := by
  have hij' : j ≠ i := fun hh => hij hh.symm
  simp only [resolvePair]
  split_ifs with h1 h2
  · exact absurd h2 (not_lt.mpr hdvn)
  · constructor <;>
    · simp only [getP_updAt_ne _ _ _ _ hij, getP_updAt_ne _ _ _ _ hij',
        getP_updAt_self, length_updAt, hi, hj]
      ring
  · exact absurd ⟨hover, hpos⟩ h1

/-- C2, witness: an overlapping pair with `dvn = 20 ≥ 0` (radii 5, masses
25, separation 8 along the x-axis), with the square root consulted at the
perfect square 64. -/
theorem resolvePairMomentumInstance :
    (⟨0, 0, -10, 0, 5, 25⟩ : Particle).mass *
        ((getP (resolvePair sqrtVals ⟨0, 0, -10, 0, 5, 25⟩ 0 1
              [⟨0, 0, -10, 0, 5, 25⟩, ⟨8, 0, 10, 0, 5, 25⟩]) 0).vx -
          (getP [(⟨0, 0, -10, 0, 5, 25⟩ : Particle), ⟨8, 0, 10, 0, 5, 25⟩] 0).vx) +
      (getP [(⟨0, 0, -10, 0, 5, 25⟩ : Particle), ⟨8, 0, 10, 0, 5, 25⟩] 1).mass *
        ((getP (resolvePair sqrtVals ⟨0, 0, -10, 0, 5, 25⟩ 0 1
              [⟨0, 0, -10, 0, 5, 25⟩, ⟨8, 0, 10, 0, 5, 25⟩]) 1).vx -
          (getP [(⟨0, 0, -10, 0, 5, 25⟩ : Particle), ⟨8, 0, 10, 0, 5, 25⟩] 1).vx) = 0 ∧
    (⟨0, 0, -10, 0, 5, 25⟩ : Particle).mass *
        ((getP (resolvePair sqrtVals ⟨0, 0, -10, 0, 5, 25⟩ 0 1
              [⟨0, 0, -10, 0, 5, 25⟩, ⟨8, 0, 10, 0, 5, 25⟩]) 0).vy -
          (getP [(⟨0, 0, -10, 0, 5, 25⟩ : Particle), ⟨8, 0, 10, 0, 5, 25⟩] 0).vy) +
      (getP [(⟨0, 0, -10, 0, 5, 25⟩ : Particle), ⟨8, 0, 10, 0, 5, 25⟩] 1).mass *
        ((getP (resolvePair sqrtVals ⟨0, 0, -10, 0, 5, 25⟩ 0 1
              [⟨0, 0, -10, 0, 5, 25⟩, ⟨8, 0, 10, 0, 5, 25⟩]) 1).vy -
          (getP [(⟨0, 0, -10, 0, 5, 25⟩ : Particle), ⟨8, 0, 10, 0, 5, 25⟩] 1).vy) = 0 :=
  resolvePairMomentum sqrtVals ⟨0, 0, -10, 0, 5, 25⟩ 0 1
    [⟨0, 0, -10, 0, 5, 25⟩, ⟨8, 0, 10, 0, 5, 25⟩]
    (by norm_num) (by norm_num) (by norm_num)
    (by norm_num [pairDistSq, getP])
    (by norm_num [pairDistSq, getP])
    (by norm_num [pairDvn, pairNx, pairNy, pairDistSq, sqrtVals, getP])

/-! ### C3 — boundary clamp and reflect -/

/-- C3: whenever the moved position crosses a wall, the integrator clamps
the centre so the edge touches the wall exactly and sets the corresponding
velocity component to `0.8` times the absolute value of the (damped)
component, directed away from the wall that was hit. -/
theorem boundaryReflect (dmp dt w h : ℚ) (p : Particle) :
    (p.x + p.vx * dt - p.radius < 0 →
      (integrateParticle dmp dt w h p).x = p.radius ∧
      (integrateParticle dmp dt w h p).vx = |p.vx * dmp| * 0.8) ∧
    (¬(p.x + p.vx * dt - p.radius < 0) → p.x + p.vx * dt + p.radius > w →
      (integrateParticle dmp dt w h p).x = w - p.radius ∧
      (integrateParticle dmp dt w h p).vx = -(|p.vx * dmp| * 0.8)) ∧
    (p.y + p.vy * dt - p.radius < 0 →
      (integrateParticle dmp dt w h p).y = p.radius ∧
      (integrateParticle dmp dt w h p).vy = |p.vy * dmp| * 0.8) ∧
    (¬(p.y + p.vy * dt - p.radius < 0) → p.y + p.vy * dt + p.radius > h →
      (integrateParticle dmp dt w h p).y = h - p.radius ∧
      (integrateParticle dmp dt w h p).vy = -(|p.vy * dmp| * 0.8)) := by
  refine ⟨fun h1 => ?_, fun h1 h2 => ?_, fun h1 => ?_, fun h1 h2 => ?_⟩
  · simp [integrateParticle, h1]
  · simp [integrateParticle, h1, h2]
  · simp [integrateParticle, h1]
  · simp [integrateParticle, h1, h2]

/-- C3, witness: a particle crossing the left wall during the step rebounds
to `x = radius = 5` with `vx = 0.8 * |-10 * 1| = 8`. -/
theorem boundaryReflectInstance :
    (integrateParticle 1 1 100 100 ⟨2, 50, -10, 0, 5, 25⟩).x = 5 ∧
      (integrateParticle 1 1 100 100 ⟨2, 50, -10, 0, 5, 25⟩).vx = 8 := by
  have h := (boundaryReflect 1 1 100 100 ⟨2, 50, -10, 0, 5, 25⟩).1 (by norm_num)
  norm_num at h
  exact h

/-! ### C4 — which pairs the resolver skips -/

/-- C4, counterexample: a candidate pair with `dvn = 0 ≥ 0` that the
resolver does **not** leave untouched — the store changes (the source skips
pairs with `dvn < 0` and processes `dvn ≥ 0`, the opposite of the claim). -/
theorem dvnNonnegResolvedCex :
    0 ≤ pairDvn sqrtVals (getP exState 0) (getP exState 1) ∧
      resolvePair sqrtVals (getP exState 0) 0 1 exState ≠ exState := by
  constructor
  · norm_num [pairDvn, pairNx, pairNy, pairDistSq, sqrtVals, getP, exState]
  · have h0 : getP exState 0 = ⟨5, 10, 0, 0, 5, 25⟩ := by norm_num [getP, exState]
    rw [h0, resolveEx]
    norm_num [exState, exState', Particle.mk.injEq]

/-- C4, amended: it is the pairs with `dvn < 0` that the resolver leaves
completely untouched (positions and velocities of every particle). -/
theorem dvnNegSkipped (s : ℚ → ℚ) (c : Particle) (i j : ℕ) (ps : List Particle)
    (hdvn : pairDvn s c (getP ps j) < 0) :
    resolvePair s c i j ps = ps := by
  simp only [resolvePair]
  split_ifs <;> rfl

/-- C4, witness for the amended theorem: an approaching pair
(`dvn = -20 < 0`) passes through the resolver unchanged. -/
theorem dvnNegSkippedInstance :
    resolvePair sqrtVals ⟨0, 0, 10, 0, 5, 25⟩ 0 1
        [⟨0, 0, 10, 0, 5, 25⟩, ⟨8, 0, -10, 0, 5, 25⟩] =
      [⟨0, 0, 10, 0, 5, 25⟩, ⟨8, 0, -10, 0, 5, 25⟩] :=
  dvnNegSkipped sqrtVals ⟨0, 0, 10, 0, 5, 25⟩ 0 1
    [⟨0, 0, 10, 0, 5, 25⟩, ⟨8, 0, -10, 0, 5, 25⟩]
    (by norm_num [pairDvn, pairNx, pairNy, pairDistSq, sqrtVals, getP])

/-! ### C5 — applyForce falloff -/

/-- C5: `applyForce` acts independently on every particle; a particle with
`distSq ≤ 0.01` or `distSq ≥ forceRadius²` is left completely unchanged,
and an in-range particle gets exactly
`strength * (1 - dist/forceRadius) * (dx/dist, dy/dist)` added to its
velocity (position, radius and mass untouched), where `dist` is the exact
square root of `distSq`. -/
theorem applyForceSpec (s : ℚ → ℚ) (mx my fr st : ℚ) (ps : List Particle) (i : ℕ)
    (p : Particle) (hi : i < ps.length) (hp : p = getP ps i) :
    getP (applyForce s mx my fr st ps) i = applyForceP s mx my fr st p ∧
    (pointDistSq mx my p ≤ 0.01 ∨ fr * fr ≤ pointDistSq mx my p →
      applyForceP s mx my fr st p = p) ∧
    ((0.01 : ℚ) < pointDistSq mx my p → pointDistSq mx my p < fr * fr →
      0 < s (pointDistSq mx my p) →
      s (pointDistSq mx my p) * s (pointDistSq mx my p) = pointDistSq mx my p →
      applyForceP s mx my fr st p =
        ⟨p.x, p.y,
          p.vx + st * (1 - s (pointDistSq mx my p) / fr) * ((p.x - mx) / s (pointDistSq mx my p)),
          p.vy + st * (1 - s (pointDistSq mx my p) / fr) * ((p.y - my) / s (pointDistSq mx my p)),
          p.radius, p.mass⟩) := by
  subst hp
  refine ⟨getP_map _ ps i hi, fun hout => ?_, fun h1 h2 h3 h4 => ?_⟩
  · simp only [applyForceP]
    rw [if_neg]
    rintro ⟨hlt, hgt⟩
    rcases hout with hle | hge
    · exact absurd hgt (not_lt.mpr hle)
    · exact absurd hlt (not_lt.mpr hge)
  · simp only [applyForceP]
    rw [if_pos ⟨h2, h1⟩]
    simp only [Particle.mk.injEq, eq_self_iff_true, true_and, and_true]
    constructor <;> ring

/-- C5, witness: a particle 25 units from the force origin with
`forceRadius = 50`, `strength = 100` receives exactly the half-strength
impulse `(50, 0)` — the square root is consulted at the perfect square
625. -/
theorem applyForceSpecInstance :
    applyForceP sqrtVals 0 0 50 100 ⟨25, 0, 0, 0, 5, 25⟩ = ⟨25, 0, 50, 0, 5, 25⟩ := by
  have h := (applyForceSpec sqrtVals 0 0 50 100 [⟨25, 0, 0, 0, 5, 25⟩] 0
      ⟨25, 0, 0, 0, 5, 25⟩ (by norm_num) (by norm_num [getP])).2.2
    (by norm_num [pointDistSq]) (by norm_num [pointDistSq])
    (by norm_num [pointDistSq, sqrtVals]) (by norm_num [pointDistSq, sqrtVals])
  norm_num [pointDistSq, sqrtVals] at h
  exact h

/-! ### C6 — grid dimensions -/

/-- C6, counterexample: at `width = height = 30` the computed dimensions
`(2, 2)` are not `ceil(30/20) + 1 = 3` per axis — the source truncates
(`<i32>` cast) instead of taking the ceiling. -/
theorem gridDimsCeilCex :
    buildGridDims 30 30 ≠ (⌈(30 : ℚ) / gridCellSize⌉ + 1, ⌈(30 : ℚ) / gridCellSize⌉ + 1) := by
  have hc : ⌈(30 : ℚ) / gridCellSize⌉ = 2 := by
    rw [show (30 : ℚ) / gridCellSize = 3/2 by norm_num [gridCellSize]]
    rw [Int.ceil_eq_iff] <;> norm_num
  rw [hc]
  norm_num [buildGridDims, trunc32, gridCellSize, Prod.ext_iff]

/-- C6, amended: for positive world bounds the grid dimensions are
`floor(width/cellSize) + 1` by `floor(height/cellSize) + 1`. -/
theorem gridDimsFloor (w h : ℚ) (hw : 0 < w) (hh : 0 < h) :
    buildGridDims w h = (⌊w / gridCellSize⌋ + 1, ⌊h / gridCellSize⌋ + 1) := by
  have hw' : ¬(w / gridCellSize < 0) :=
    not_lt.mpr (div_nonneg hw.le (by norm_num [gridCellSize]))
  have hh' : ¬(h / gridCellSize < 0) :=
    not_lt.mpr (div_nonneg hh.le (by norm_num [gridCellSize]))
  simp [buildGridDims, trunc32, hw', hh']

/-- C6, witness for the amended theorem at `width = 50`, `height = 30`. -/
theorem gridDimsFloorInstance :
    buildGridDims 50 30 = (⌊(50 : ℚ) / gridCellSize⌋ + 1, ⌊(30 : ℚ) / gridCellSize⌋ + 1) :=
  gridDimsFloor 50 30 (by norm_num) (by norm_num)

/-! ### C7 — which particles the grid bins -/

/-- C7, counterexample: a particle whose centre is out of the world bounds
(`x = -1 < 0`) is **not** dropped from the grid — the `<i32>` cast truncates
`-1/20` to cell 0, which passes the cell-coordinate guard, so the particle
is binned into cell 0. -/
theorem gridDropOutOfBoundsCex :
    (getP [(⟨-1, 5, 0, 0, 5, 25⟩ : Particle)] 0).x < 0 ∧
      0 ∈ buildGrid 100 100 [(⟨-1, 5, 0, 0, 5, 25⟩ : Particle)] 0 := by
  constructor
  · norm_num [getP]
  · unfold buildGrid
    rw [gridFold_mem]
    refine Or.inr ⟨by norm_num, ⟨?_, ?_, ?_, ?_⟩, ?_⟩ <;>
      norm_num [pCellOk, pCellX, pCellY, pCellIdx, cellCoord, trunc32, gridCellSize,
        getP, buildGridDims]

/-- C7, amended: `buildGrid` bins particle `i` into exactly the cell with
flat index `cellY * gridWidth + cellX` of its truncated cell coordinates,
and only when those cell coordinates lie inside the grid range; a particle
whose cell coordinates fall outside the grid appears in no cell (silently
dropped), while a centre that is out of world bounds may still be binned
when its cell coordinates are in range. -/
theorem gridMembership (w h : ℚ) (ps : List Particle) (i c : ℕ) (hi : i < ps.length) :
    i ∈ buildGrid w h ps c ↔
      pCellOk (buildGridDims w h).1 (buildGridDims w h).2 ps i ∧
        c = pCellIdx (buildGridDims w h).1 ps i := by
  unfold buildGrid
  rw [gridFold_mem]
  simp [List.mem_range, hi]

/-- C7, witness: an in-bounds particle at `(30, 50)` in a `100 × 100` world
lands exactly in cell `(1, 2)`, flat index 13 of the 6-wide grid. -/
theorem gridMembershipInstance :
    0 ∈ buildGrid 100 100 [(⟨30, 50, 1, 2, 5, 25⟩ : Particle)] 13 := by
  refine (gridMembership 100 100 _ 0 13 (by norm_num)).mpr ⟨⟨?_, ?_, ?_, ?_⟩, ?_⟩ <;>
    norm_num [pCellOk, pCellX, pCellY, pCellIdx, cellCoord, trunc32, gridCellSize,
      getP, buildGridDims] <;>
    decide

/-! ### C8 — radius range and mass derivation -/

/-- C8: after `initParticles` (with random draws in `[0, 1)`) and any
sequence of exported operations (`updateParticles`, `applyGravity`,
`applyForce`), every particle's radius lies in `[3, 8]` and its mass equals
its radius squared — no operation ever writes the radius or mass slots. -/
theorem radiusMassInvariant (s : ℚ → ℚ) (dmp : ℚ) (r : ℕ → ℚ) (w h : ℚ) (count : ℕ)
    (ops : List Op) (hr : ∀ n, 0 ≤ r n ∧ r n < 1) :
    ∀ p ∈ applyOps s dmp ops (initParticles r count w h),
      3 ≤ p.radius ∧ p.radius ≤ 8 ∧ p.mass = p.radius * p.radius :=
  goodP_applyOps s dmp ops _ (goodP_init r count w h hr)

/-- C8, witness: a store of one particle from the constant stream `1/2`
(radius `11/2`, mass `121/4`) after the empty operation sequence. -/
theorem radiusMassInvariantInstance :
    3 ≤ (getP (applyOps sqrtVals 1 [] (initParticles (fun _ => 1/2) 1 100 100)) 0).radius ∧
      (getP (applyOps sqrtVals 1 [] (initParticles (fun _ => 1/2) 1 100 100)) 0).radius ≤ 8 ∧
      (getP (applyOps sqrtVals 1 [] (initParticles (fun _ => 1/2) 1 100 100)) 0).mass =
        (getP (applyOps sqrtVals 1 [] (initParticles (fun _ => 1/2) 1 100 100)) 0).radius *
          (getP (applyOps sqrtVals 1 [] (initParticles (fun _ => 1/2) 1 100 100)) 0).radius := by
  refine radiusMassInvariant sqrtVals 1 (fun _ => 1/2) 100 100 1 []
    (fun n => by norm_num) _ ?_
  apply getP_mem
  norm_num [applyOps, initParticles]

/-! ### C9 — applyForce with non-positive radius -/

/-- C9, counterexample: `applyForce` with the negative radius `-50` does not
fail fast — it silently proceeds and **does** modify particle state: the
squared radius `(-50)² = 2500` is positive, so a particle 30 units away is
pushed (with inverted falloff).  The square root is consulted at the
perfect square 900. -/
theorem applyForceNegRadiusCex :
    (-50 : ℚ) < 0 ∧
      applyForce sqrtVals 0 0 (-50) 100 [(⟨30, 0, 0, 0, 5, 25⟩ : Particle)] ≠
        [(⟨30, 0, 0, 0, 5, 25⟩ : Particle)] := by
  constructor
  · norm_num
  · norm_num [applyForce, applyForceP, pointDistSq, sqrtVals, Particle.mk.injEq]

/-- C9, amended: there is no validation of `forceRadius`.  With
`forceRadius = 0` the operation silently leaves every particle unchanged
(the `distSq < 0` test never passes); with a negative radius it still
modifies particles, as the counterexample shows.  No error is signalled in
either case. -/
theorem applyForceZeroRadiusNoop (s : ℚ → ℚ) (mx my st : ℚ) (ps : List Particle) :
    applyForce s mx my 0 st ps = ps := by
  have hp : ∀ p : Particle, applyForceP s mx my 0 st p = p := by
    intro p
    simp only [applyForceP]
    rw [if_neg]
    rintro ⟨hlt, -⟩
    have : (0 : ℚ) ≤ pointDistSq mx my p :=
      add_nonneg (mul_self_nonneg _) (mul_self_nonneg _)
    nlinarith
  induction ps with
  | nil => rfl
  | cons a t ih =>
    simp only [applyForce, List.map_cons, hp] at ih ⊢
    rw [ih]

/-! ### C10 — grid broad-phase versus all-pairs loop -/

/-- C10, counterexample: a store of two overlapping particles (radius 30,
centres 40 apart) binned two grid columns apart: the grid version's 3×3
neighbourhood walk never discovers the pair while the all-pairs version
separates it, so the two `updateParticles` versions produce different
states for the same input. -/
theorem gridNaiveDifferCex :
    updateParticlesG sqrtVals (999/1000) 0 100 60 farState ≠
      updateParticlesN sqrtVals (999/1000) 0 100 60 farState := by
  rw [gridRunFar, naiveRunFar]
  norm_num [farState, farState', Particle.mk.injEq]

/-- C10, amended: the grid version is not state-for-state equivalent to the
all-pairs version — it enumerates only pairs discovered in the 3×3
neighbourhood walk and can miss overlapping pairs binned farther apart;
when every colliding pair is discovered the two versions do coincide, as on
this concrete store whose colliding pair shares a cell. -/
theorem gridNaiveAgreeExample :
    updateParticlesG sqrtVals (999/1000) 0 100 20 exState =
      updateParticlesN sqrtVals (999/1000) 0 100 20 exState := by
  rw [gridRunEx, naiveRunEx]
